import Mathlib

/-!
Verification of the perfetto_launcher static file server and port logic
(src/main.rs), as a shallow embedding.

The filesystem and the TCP stack are external to the program; they enter the
embedding as explicit parameters (`Fs`, the `base`/`bindOk` oracles, the
`headerOk` oracle for `tiny_http::Header::from_bytes`).  Paths that the real
code canonicalizes are represented as raw strings before canonicalization and
as lists of components (the canonical form) afterwards, mirroring how
`std::path::Path::starts_with` compares component-wise.
-/

namespace PerfettoLauncher

/-- ASCII lowercasing of one character (`A`..`Z` shifted by 32, everything
else unchanged).  Used only to state case-sensitivity properties of the MIME
table. -/
def charLower (c : Char) : Char :=
  if 'A' ≤ c ∧ c ≤ 'Z' then Char.ofNat (c.toNat + 32) else c

/-- ASCII lowercasing of a string, character by character. -/
def strLower (s : String) : String := ⟨s.data.map charLower⟩

/-- Rust `Path::extension` on a single file name, working on the reversed
character list: the portion after the final `.`; `none` when there is no `.`
or when the only `.` is the leading character of the name. -/
def extensionRev (rev : List Char) : Option (List Char) :=
  match rev.dropWhile (fun c => c ≠ '.') with
  | [] => none
  | _ :: stemRev => if stemRev = [] then none else some (rev.takeWhile (fun c => c ≠ '.'))

/-- Rust `Path::extension` restricted to one file-name component. -/
def extensionOf (name : String) : Option String :=
  (extensionRev name.data.reverse).map (fun l => ⟨l.reverse⟩)

/-- Extension of a canonical path (given as components): Rust
`Path::extension` looks at the last component. -/
def path_extension (p : List String) : Option String :=
  p.getLast?.bind extensionOf

/-- `get_mime_type` from src/main.rs lines 51-69: a fixed lookup table from
the file extension to a MIME string; every extension not in the table (and a
missing extension) maps to `application/octet-stream`.  The Rust `match` on
string literals is rendered as the equivalent chain of equality tests, in the
source's arm order. -/
def get_mime_type (ext : Option String) : String :=
  match ext with
  | none => "application/octet-stream"
  | some e =>
    if e = "html" then "text/html; charset=utf-8"
    else if e = "js" then "application/javascript; charset=utf-8"
    else if e = "css" then "text/css; charset=utf-8"
    else if e = "json" then "application/json; charset=utf-8"
    else if e = "wasm" then "application/wasm"
    else if e = "png" then "image/png"
    else if e = "jpg" ∨ e = "jpeg" then "image/jpeg"
    else if e = "gif" then "image/gif"
    else if e = "svg" then "image/svg+xml"
    else if e = "ico" then "image/x-icon"
    else if e = "woff" then "font/woff"
    else if e = "woff2" then "font/woff2"
    else if e = "ttf" then "font/ttf"
    else if e = "map" then "application/json"
    else "application/octet-stream"

/-- The exact set of extensions the table at src/main.rs lines 51-69 covers. -/
def mime_table_keys : List String :=
  ["html", "js", "css", "json", "wasm", "png", "jpg", "jpeg", "gif", "svg",
   "ico", "woff", "woff2", "ttf", "map"]

/-- Request-path preprocessing from src/main.rs lines 159-160:
`trim_start_matches('/')` removes every leading `/`, then
`split('?').next()` keeps everything strictly before the first `?`. -/
def strip_url (url : String) : String :=
  ⟨(url.data.dropWhile (fun c => c = '/')).takeWhile (fun c => c ≠ '?')⟩

/-- Candidate file path from src/main.rs lines 162-166: when the stripped
path is empty, join `"index.html"` onto the dist directory, otherwise join
the stripped path. -/
def candidate_path (dist_dir url : String) : String :=
  let url_path := strip_url url
  if url_path = "" then dist_dir ++ "/" ++ "index.html"
  else dist_dir ++ "/" ++ url_path

/-- The filesystem as the request handler sees it: `canonicalize` maps a raw
path string to its canonical component list (`none` = `fs::canonicalize`
error), `readFile` maps a canonical path to the file's bytes (`none` =
`fs::read` error). -/
structure Fs where
  canonicalize : String → Option (List String)
  readFile : List String → Option (List Nat)

/-- Response body: raw file bytes (`Response::from_data`) or plain text
(`Response::from_string`). -/
inductive Body where
  | bytes (data : List Nat)
  | text (s : String)
deriving DecidableEq

/-- An HTTP response: status code, body, and the explicitly added headers. -/
structure HttpResponse where
  status : Nat
  body : Body
  headers : List (String × String)
deriving DecidableEq

/-- Outcome of handling one request: a response, or a panic of the request
loop (a Rust `unwrap` failing). -/
inductive Outcome where
  | respond (r : HttpResponse)
  | panic
deriving DecidableEq

/-- `Response::from_string("Not Found").with_status_code(404)`. -/
def notFoundResponse : HttpResponse := ⟨404, Body.text "Not Found", []⟩

/-- `Response::from_string("Internal Error").with_status_code(500)`. -/
def internalErrorResponse : HttpResponse := ⟨500, Body.text "Internal Error", []⟩

/-- `Response::from_string("Forbidden").with_status_code(403)`. -/
def forbiddenResponse : HttpResponse := ⟨403, Body.text "Forbidden", []⟩

/-- The per-request body of the loop at src/main.rs lines 158-209.
`headerOk` models whether `tiny_http::Header::from_bytes(name, value)`
succeeds; the source calls `.unwrap()` on it, so a failure is a panic.
`canonical.starts_with(&dist_canonical)` is Rust's component-wise
`Path::starts_with`, i.e. `List.isPrefixOf` on component lists. -/
def handle_request (fs : Fs) (headerOk : String → String → Bool)
    (dist_dir url : String) : Outcome :=
  let file_path := candidate_path dist_dir url
  match fs.canonicalize file_path with
  | none => Outcome.respond notFoundResponse
  | some canonical =>
    match fs.canonicalize dist_dir with
    | none => Outcome.respond internalErrorResponse
    | some dist_canonical =>
      if !(dist_canonical.isPrefixOf canonical) then
        Outcome.respond forbiddenResponse
      else
        match fs.readFile canonical with
        | some content =>
          let mime := get_mime_type (path_extension canonical)
          if headerOk "Content-Type" mime then
            if headerOk "Access-Control-Allow-Origin" "*" then
              Outcome.respond
                { status := 200
                  body := Body.bytes content
                  headers := [("Content-Type", mime),
                              ("Access-Control-Allow-Origin", "*")] }
            else Outcome.panic
          else Outcome.panic
        | none => Outcome.respond notFoundResponse

/-- The attempt loop of `get_available_port_with_offset` (src/main.rs lines
17-27), parameterized by the OS oracles: `base i` is the ephemeral port the
i-th probe returns, `bindOk p` whether binding port `p` succeeds.  The
candidate is `base as u32 + offset as u32`, modelled as addition modulo
2^32; a candidate above `u16::MAX` is skipped. -/
def portSearchFrom (offset : Nat) (base : Nat → Nat) (bindOk : Nat → Bool) :
    Nat → Nat → Option Nat
  | _, 0 => none
  | i, remaining + 1 =>
    let candidate := (base i + offset) % 4294967296
    if candidate > 65535 then portSearchFrom offset base bindOk (i + 1) remaining
    else if bindOk candidate then some candidate
    else portSearchFrom offset base bindOk (i + 1) remaining

/-- `get_available_port_with_offset` from src/main.rs lines 16-29: 20
attempts, then fall back to a plain ephemeral port (`get_available_port()`,
modelled by the `fallback` oracle value). -/
def get_available_port_with_offset (offset : Nat) (base : Nat → Nat)
    (bindOk : Nat → Bool) (fallback : Nat) : Nat :=
  match portSearchFrom offset base bindOk 0 20 with
  | some p => p
  | none => fallback

/-- The `while http_port == rpc_port` retry loop of src/main.rs lines 96-99,
with `alloc i` the result of the (i+1)-th call to
`get_available_port_with_offset` in `main` (index 0 is the rpc-port call,
the loop consumes indices from `i` upward).  `fuel` bounds how many results
we examine; `none` means the loop is still running after examining `fuel`
results. -/
def while_ne_loop (rpc : Nat) (alloc : Nat → Nat) : Nat → Nat → Option Nat
  | _, 0 => none
  | i, fuel + 1 =>
    if alloc i = rpc then while_ne_loop rpc alloc (i + 1) fuel
    else some (alloc i)

/-- Port allocation in `main` (src/main.rs lines 95-99): take the rpc port,
then retry the http port until it differs. -/
def allocate_ports (alloc : Nat → Nat) (fuel : Nat) : Option (Nat × Nat) :=
  let rpc_port := alloc 0
  (while_ne_loop rpc_port alloc 1 fuel).map (fun http_port => (rpc_port, http_port))

/-- Observable side-effecting steps of `main`'s startup sequence
(src/main.rs lines 75-142). -/
inductive StartupEvent where
  | checkBackend
  | checkIndex
  | portAlloc
  | spawnBackend
  | startListener
deriving DecidableEq

/-- The startup sequence of `main` (src/main.rs lines 75-142) as the list of
steps it performs, in source order, with the early `return`s at lines 83 and
90 cutting the list short: check `trace_processor_shell.exe` exists (return
if not), check `index.html` exists (return if not), then port allocations
(`portAllocs` of them, covering both calls and the retry loop), the spawn of
the backend, and the start of the HTTP listener. -/
def startup_events (backendExists indexExists : Bool) (portAllocs : Nat) :
    List StartupEvent :=
  StartupEvent.checkBackend ::
    (if backendExists then
      StartupEvent.checkIndex ::
        (if indexExists then
          List.replicate portAllocs StartupEvent.portAlloc ++
            [StartupEvent.spawnBackend, StartupEvent.startListener]
        else [])
    else [])

/-! Concrete fixtures used by witnesses and counterexamples. -/

/-- Header-construction oracle that always succeeds (the behaviour of
`tiny_http` on the constant header names and table MIME values the code
actually passes). -/
def hOkTrue : String → String → Bool := fun _ _ => true

/-- Header-construction oracle under which building `Content-Type` fails. -/
def hOkNoContentType : String → String → Bool := fun n _ => !(n = "Content-Type")

/-- A filesystem where the root canonicalizes to `/opt/app/dist` and a
traversal request canonicalizes into the sibling directory
`/opt/app/dist-evil`. -/
def sibling_fs : Fs where
  canonicalize := fun s =>
    if s = "/opt/app/dist" then some ["opt", "app", "dist"]
    else if s = "/opt/app/dist/../dist-evil/secret" then
      some ["opt", "app", "dist-evil", "secret"]
    else none
  readFile := fun p =>
    if p = ["opt", "app", "dist-evil", "secret"] then some [42] else none

/-- A filesystem with one readable file `/r/a.html` under the root `/r`. -/
def fs_ok : Fs where
  canonicalize := fun s =>
    if s = "/r" then some ["r"]
    else if s = "/r/a.html" then some ["r", "a.html"]
    else none
  readFile := fun p =>
    if p = ["r", "a.html"] then some [1, 2, 3] else none

/-- A filesystem where nothing canonicalizes. -/
def fs_none : Fs where
  canonicalize := fun _ => none
  readFile := fun _ => none

/-! Helper lemmas. -/

/-- A string with an uppercase ASCII letter is different from any string
that is fixed by `strLower`. -/
theorem ne_key_of_not_lower {e k : String} (hk : strLower k = k)
    (hne : e ≠ strLower e) : e ≠ k := by
  intro he
  exact hne (by rw [he, hk])

/-- `takeWhile (· ≠ '?')` ignores everything from the first `'?'` onward. -/
theorem takeWhile_until_query (q : List Char) (t : List Char) :
    (∀ c ∈ t, ¬(c = '?')) →
      (t ++ '?' :: q).takeWhile (fun c => decide (¬ c = '?')) =
        t.takeWhile (fun c => decide (¬ c = '?')) := by
  induction t with
  | nil =>
    intro _
    simp [List.takeWhile_cons]
  | cons a t ih =>
    intro h
    have ha : ¬(a = '?') := h a (List.mem_cons_self a t)
    have ht : ∀ c ∈ t, ¬(c = '?') := fun c hc => h c (List.mem_cons_of_mem a hc)
    simp only [List.cons_append, List.takeWhile_cons]
    simp [ha]
    simpa using ih ht

/-- The stripped request path ignores everything from the first `'?'`
onward, also through the leading-slash removal. -/
theorem strip_data_append_query (q : List Char) (u : List Char) :
    (∀ c ∈ u, ¬(c = '?')) →
      ((u ++ '?' :: q).dropWhile fun c => decide (c = '/')).takeWhile
          (fun c => decide (¬ c = '?')) =
        (u.dropWhile fun c => decide (c = '/')).takeWhile
          (fun c => decide (¬ c = '?')) := by
  induction u with
  | nil =>
    intro _
    simp [List.dropWhile, List.takeWhile_cons]
  | cons a t ih =>
    intro h
    have ha : ¬(a = '?') := h a (List.mem_cons_self a t)
    have ht : ∀ c ∈ t, ¬(c = '?') := fun c hc => h c (List.mem_cons_of_mem a hc)
    by_cases has : a = '/'
    · simp only [List.cons_append, List.dropWhile_cons, has]
      simpa using ih ht
    · simp only [List.cons_append, List.dropWhile_cons]
      simp [has, List.takeWhile_cons, ha]
      simpa using takeWhile_until_query q t ht

/-! Claims. -/

/-- C5: the content type is determined purely by the extension through a
fixed table covering exactly html, js, css, json, wasm, png, jpg/jpeg, gif,
svg, ico, woff, woff2, ttf and map (jpg and jpeg sharing one MIME string),
and every extension outside the table, as well as a missing extension,
yields `application/octet-stream`. -/
theorem mime_table_exact :
    (∀ e : String, e ∉ mime_table_keys →
      get_mime_type (some e) = "application/octet-stream") ∧
    get_mime_type none = "application/octet-stream" ∧
    get_mime_type (some "html") = "text/html; charset=utf-8" ∧
    get_mime_type (some "js") = "application/javascript; charset=utf-8" ∧
    get_mime_type (some "css") = "text/css; charset=utf-8" ∧
    get_mime_type (some "json") = "application/json; charset=utf-8" ∧
    get_mime_type (some "wasm") = "application/wasm" ∧
    get_mime_type (some "png") = "image/png" ∧
    get_mime_type (some "jpg") = "image/jpeg" ∧
    get_mime_type (some "jpeg") = "image/jpeg" ∧
    get_mime_type (some "gif") = "image/gif" ∧
    get_mime_type (some "svg") = "image/svg+xml" ∧
    get_mime_type (some "ico") = "image/x-icon" ∧
    get_mime_type (some "woff") = "font/woff" ∧
    get_mime_type (some "woff2") = "font/woff2" ∧
    get_mime_type (some "ttf") = "font/ttf" ∧
    get_mime_type (some "map") = "application/json" := by
  refine ⟨?_, by decide⟩
  intro e he
  simp only [mime_table_keys, List.mem_cons, List.not_mem_nil, or_false,
    not_or] at he
  obtain ⟨h1, h2, h3, h4, h5, h6, h7, h8, h9, h10, h11, h12, h13, h14, h15⟩ := he
  simp [get_mime_type, h1, h2, h3, h4, h5, h6, h7, h8, h9, h10, h11, h12, h13,
    h14, h15]

/-- C5 witness: the unknown extension `bin` is outside the table and maps to
the generic binary type. -/
theorem mime_table_exact_witness :
    "bin" ∉ mime_table_keys ∧
      get_mime_type (some "bin") = "application/octet-stream" :=
  ⟨by decide, mime_table_exact.1 "bin" (by decide)⟩

/-- C10: extension matching is case-sensitive: any extension that differs
from a (lowercase) table entry only in letter case misses the table, so the
served content type is `application/octet-stream`. -/
theorem mime_lookup_case_sensitive (e : String)
    (_hmem : strLower e ∈ mime_table_keys) (hne : e ≠ strLower e) :
    get_mime_type (some e) = "application/octet-stream" := by
  have h1 : e ≠ "html" := ne_key_of_not_lower (by decide) hne
  have h2 : e ≠ "js" := ne_key_of_not_lower (by decide) hne
  have h3 : e ≠ "css" := ne_key_of_not_lower (by decide) hne
  have h4 : e ≠ "json" := ne_key_of_not_lower (by decide) hne
  have h5 : e ≠ "wasm" := ne_key_of_not_lower (by decide) hne
  have h6 : e ≠ "png" := ne_key_of_not_lower (by decide) hne
  have h7 : e ≠ "jpg" := ne_key_of_not_lower (by decide) hne
  have h8 : e ≠ "jpeg" := ne_key_of_not_lower (by decide) hne
  have h9 : e ≠ "gif" := ne_key_of_not_lower (by decide) hne
  have h10 : e ≠ "svg" := ne_key_of_not_lower (by decide) hne
  have h11 : e ≠ "ico" := ne_key_of_not_lower (by decide) hne
  have h12 : e ≠ "woff" := ne_key_of_not_lower (by decide) hne
  have h13 : e ≠ "woff2" := ne_key_of_not_lower (by decide) hne
  have h14 : e ≠ "ttf" := ne_key_of_not_lower (by decide) hne
  have h15 : e ≠ "map" := ne_key_of_not_lower (by decide) hne
  simp [get_mime_type, h1, h2, h3, h4, h5, h6, h7, h8, h9, h10, h11, h12, h13,
    h14, h15]

/-- C10 witness: `PNG` lowercases to the table entry `png`, differs from it,
and is served as `application/octet-stream`. -/
theorem mime_lookup_case_sensitive_witness :
    strLower "PNG" ∈ mime_table_keys ∧ "PNG" ≠ strLower "PNG" ∧
      get_mime_type (some "PNG") = "application/octet-stream" :=
  ⟨by decide, by decide, mime_lookup_case_sensitive "PNG" (by decide) (by decide)⟩

/-- C2: the error-to-status mapping of the request handler.  A candidate
that fails to canonicalize yields 404 "Not Found" (regardless of the root,
i.e. the candidate is canonicalized and its failure handled before the root
is); a root that fails to canonicalize (with the candidate fine) yields 500
"Internal Error"; a canonical path outside the root yields 403 "Forbidden";
a read failure on the resolved file yields 404 "Not Found". -/
theorem error_status_mapping (fs : Fs) (headerOk : String → String → Bool)
    (dist_dir url : String) :
    (fs.canonicalize (candidate_path dist_dir url) = none →
      handle_request fs headerOk dist_dir url = Outcome.respond notFoundResponse) ∧
    (∀ canonical, fs.canonicalize (candidate_path dist_dir url) = some canonical →
      fs.canonicalize dist_dir = none →
      handle_request fs headerOk dist_dir url = Outcome.respond internalErrorResponse) ∧
    (∀ canonical dist_canonical,
      fs.canonicalize (candidate_path dist_dir url) = some canonical →
      fs.canonicalize dist_dir = some dist_canonical →
      dist_canonical.isPrefixOf canonical = false →
      handle_request fs headerOk dist_dir url = Outcome.respond forbiddenResponse) ∧
    (∀ canonical dist_canonical,
      fs.canonicalize (candidate_path dist_dir url) = some canonical →
      fs.canonicalize dist_dir = some dist_canonical →
      dist_canonical.isPrefixOf canonical = true →
      fs.readFile canonical = none →
      handle_request fs headerOk dist_dir url = Outcome.respond notFoundResponse) ∧
    notFoundResponse = ⟨404, Body.text "Not Found", []⟩ ∧
    internalErrorResponse = ⟨500, Body.text "Internal Error", []⟩ ∧
    forbiddenResponse = ⟨403, Body.text "Forbidden", []⟩ := by
  refine ⟨?_, ?_, ?_, ?_, rfl, rfl, rfl⟩
  · intro h
    simp [handle_request, h]
  · intro canonical hc hd
    simp [handle_request, hc, hd]
  · intro canonical dist_canonical hc hd hpre
    simp [handle_request, hc, hd, hpre]
  · intro canonical dist_canonical hc hd hpre hread
    simp [handle_request, hc, hd, hpre, hread]

/-- C2 witness: on a filesystem where nothing canonicalizes, a request gets
404 "Not Found". -/
theorem error_status_mapping_witness :
    handle_request fs_none hOkTrue "/r" "/nope" = Outcome.respond notFoundResponse :=
  (error_status_mapping fs_none hOkTrue "/r" "/nope").1 rfl

/-- C4: when the candidate and the root both canonicalize, the candidate
lies inside the root, the file is readable and both headers construct, the
response is 200 with the exact file bytes, the table content type for the
file's extension, and `Access-Control-Allow-Origin: *`. -/
theorem success_response (fs : Fs) (headerOk : String → String → Bool)
    (dist_dir url : String) (canonical dist_canonical : List String)
    (content : List Nat)
    (hc : fs.canonicalize (candidate_path dist_dir url) = some canonical)
    (hd : fs.canonicalize dist_dir = some dist_canonical)
    (hpre : dist_canonical.isPrefixOf canonical = true)
    (hread : fs.readFile canonical = some content)
    (hct : headerOk "Content-Type" (get_mime_type (path_extension canonical)) = true)
    (hcors : headerOk "Access-Control-Allow-Origin" "*" = true) :
    handle_request fs headerOk dist_dir url =
      Outcome.respond ⟨200, Body.bytes content,
        [("Content-Type", get_mime_type (path_extension canonical)),
         ("Access-Control-Allow-Origin", "*")]⟩ := by
  simp [handle_request, hc, hd, hpre, hread, hct, hcors]

/-- C4 witness: the file `/r/a.html` is served with status 200, its bytes,
its table content type and the permissive CORS header. -/
theorem success_response_witness :
    handle_request fs_ok hOkTrue "/r" "/a.html" =
      Outcome.respond ⟨200, Body.bytes [1, 2, 3],
        [("Content-Type", get_mime_type (path_extension ["r", "a.html"])),
         ("Access-Control-Allow-Origin", "*")]⟩ :=
  success_response fs_ok hOkTrue "/r" "/a.html" ["r", "a.html"] ["r"] [1, 2, 3]
    (by decide) (by decide) (by decide) (by decide) rfl rfl

/-- C1: file bytes are served only when the canonicalized candidate is equal
to or a component-wise descendant of the canonicalized root; a candidate
canonicalizing outside that subtree gets the 403 Forbidden response and no
file content; and the containment test is component-wise, so a sibling
directory whose name merely extends the root's name as a string
(`/opt/app/dist` vs `/opt/app/dist-evil`) is rejected as Forbidden. -/
theorem path_containment (fs : Fs) (headerOk : String → String → Bool)
    (dist_dir url : String) :
    (∀ r data, handle_request fs headerOk dist_dir url = Outcome.respond r →
      r.body = Body.bytes data →
      ∃ canonical dist_canonical,
        fs.canonicalize (candidate_path dist_dir url) = some canonical ∧
        fs.canonicalize dist_dir = some dist_canonical ∧
        dist_canonical.isPrefixOf canonical = true) ∧
    (∀ canonical dist_canonical,
      fs.canonicalize (candidate_path dist_dir url) = some canonical →
      fs.canonicalize dist_dir = some dist_canonical →
      dist_canonical.isPrefixOf canonical = false →
      handle_request fs headerOk dist_dir url = Outcome.respond forbiddenResponse) ∧
    handle_request sibling_fs hOkTrue "/opt/app/dist" "/../dist-evil/secret" =
      Outcome.respond forbiddenResponse ∧
    ["opt", "app", "dist"].isPrefixOf ["opt", "app", "dist-evil", "secret"] = false := by
  refine ⟨?_, ?_, by decide, by decide⟩
  · intro r data hr hb
    rcases hc : fs.canonicalize (candidate_path dist_dir url) with _ | canonical
    · exfalso
      simp only [handle_request, hc, Outcome.respond.injEq] at hr
      rw [← hr] at hb
      simp [notFoundResponse] at hb
    · rcases hd : fs.canonicalize dist_dir with _ | dist_canonical
      · exfalso
        simp only [handle_request, hc, hd, Outcome.respond.injEq] at hr
        rw [← hr] at hb
        simp [internalErrorResponse] at hb
      · rcases hpre : dist_canonical.isPrefixOf canonical with _ | _
        · exfalso
          simp only [handle_request, hc, hd, hpre, Bool.not_false, if_true,
            Outcome.respond.injEq] at hr
          rw [← hr] at hb
          simp [forbiddenResponse] at hb
        · rcases hread : fs.readFile canonical with _ | content
          · exfalso
            simp only [handle_request, hc, hd, hpre, hread, Bool.not_true,
              Bool.false_eq_true, if_false, Outcome.respond.injEq] at hr
            rw [← hr] at hb
            simp [notFoundResponse] at hb
          · exact ⟨canonical, dist_canonical, rfl, rfl, hpre⟩
  · intro canonical dist_canonical hc hd hpre
    simp [handle_request, hc, hd, hpre]

/-- C1 witness: a request canonicalizing into the sibling directory
`/opt/app/dist-evil` of the root `/opt/app/dist` is answered 403 Forbidden. -/
theorem path_containment_witness :
    handle_request sibling_fs hOkTrue "/opt/app/dist" "/../dist-evil/secret" =
      Outcome.respond forbiddenResponse :=
  (path_containment sibling_fs hOkTrue "/opt/app/dist" "/../dist-evil/secret").2.1
    ["opt", "app", "dist-evil", "secret"] ["opt", "app", "dist"]
    (by decide) (by decide) (by decide)

/-- C3: request-path resolution strips every leading `/` and everything from
the first `?` onward, substitutes `index.html` when the remainder is empty;
hence `/` is handled exactly like `/index.html`, and `/app.js?v=2` exactly
like `/app.js`. -/
theorem url_processing_correct (fs : Fs) (headerOk : String → String → Bool)
    (dist_dir : String) :
    (∀ url : String, strip_url ("/" ++ url) = strip_url url) ∧
    (∀ u q : List Char, (∀ c ∈ u, ¬(c = '?')) →
      strip_url ⟨u ++ '?' :: q⟩ = strip_url ⟨u⟩) ∧
    (∀ url : String, strip_url url = "" →
      candidate_path dist_dir url = dist_dir ++ "/" ++ "index.html") ∧
    handle_request fs headerOk dist_dir "/" =
      handle_request fs headerOk dist_dir "/index.html" ∧
    handle_request fs headerOk dist_dir "/app.js?v=2" =
      handle_request fs headerOk dist_dir "/app.js" := by
  have hcand : ∀ url url' : String,
      candidate_path dist_dir url = candidate_path dist_dir url' →
      handle_request fs headerOk dist_dir url = handle_request fs headerOk dist_dir url' := by
    intro url url' h
    simp only [handle_request, h]
  have hroot : candidate_path dist_dir "/" = dist_dir ++ "/" ++ "index.html" := by
    unfold candidate_path
    rw [show strip_url "/" = "" from by decide, if_pos rfl]
  have hindex : candidate_path dist_dir "/index.html" = dist_dir ++ "/" ++ "index.html" := by
    unfold candidate_path
    rw [show strip_url "/index.html" = "index.html" from by decide,
      if_neg (by decide)]
  have happq : candidate_path dist_dir "/app.js?v=2" = dist_dir ++ "/" ++ "app.js" := by
    unfold candidate_path
    rw [show strip_url "/app.js?v=2" = "app.js" from by decide, if_neg (by decide)]
  have happ : candidate_path dist_dir "/app.js" = dist_dir ++ "/" ++ "app.js" := by
    unfold candidate_path
    rw [show strip_url "/app.js" = "app.js" from by decide, if_neg (by decide)]
  refine ⟨?_, ?_, ?_, hcand "/" "/index.html" (hroot.trans hindex.symm),
    hcand "/app.js?v=2" "/app.js" (happq.trans happ.symm)⟩
  · intro url
    obtain ⟨data⟩ := url
    show strip_url ⟨'/' :: data⟩ = strip_url ⟨data⟩
    simp [strip_url, List.dropWhile_cons]
  · intro u q h
    exact congrArg String.mk (strip_data_append_query q u h)
  · intro url hurl
    simp [candidate_path, hurl]

/-- C3 witness: a request for `/` produces the candidate path
`<root>/index.html`. -/
theorem url_processing_witness :
    candidate_path "/r" "/" = "/r" ++ "/" ++ "index.html" :=
  (url_processing_correct fs_none hOkTrue "/r").2.2.1 "/" (by decide)

/-- C9 counterexample: when construction of the `Content-Type` header fails
for a readable in-root file, the handler panics (the `unwrap` at
src/main.rs line 197) instead of falling through to the 404 response the
claim describes. -/
theorem header_failure_panics :
    handle_request fs_ok hOkNoContentType "/r" "/a.html" = Outcome.panic ∧
    handle_request fs_ok hOkNoContentType "/r" "/a.html" ≠
      Outcome.respond notFoundResponse ∧
    handle_request fs_ok hOkNoContentType "/r" "/a.html" ≠
      Outcome.respond internalErrorResponse := by
  refine ⟨by decide, by decide, by decide⟩

/-- C9 (amended): a failed response-header construction makes the handler
panic — aborting the request loop — rather than fall through to an error
response; a panic arises only from such a failure, and when header
construction always succeeds no request can panic the loop. -/
theorem header_panic_behavior (fs : Fs) (headerOk : String → String → Bool)
    (dist_dir url : String) :
    (handle_request fs headerOk dist_dir url = Outcome.panic →
      (∃ m, headerOk "Content-Type" m = false) ∨
        headerOk "Access-Control-Allow-Origin" "*" = false) ∧
    ((∀ n v, headerOk n v = true) →
      handle_request fs headerOk dist_dir url ≠ Outcome.panic) := by
  constructor
  · intro hp
    rcases hc : fs.canonicalize (candidate_path dist_dir url) with _ | canonical
    · simp [handle_request, hc] at hp
    · rcases hd : fs.canonicalize dist_dir with _ | dist_canonical
      · simp [handle_request, hc, hd] at hp
      · rcases hpre : dist_canonical.isPrefixOf canonical with _ | _
        · simp [handle_request, hc, hd, hpre] at hp
        · rcases hread : fs.readFile canonical with _ | content
          · simp [handle_request, hc, hd, hpre, hread] at hp
          · rcases hct : headerOk "Content-Type" (get_mime_type (path_extension canonical)) with _ | _
            · exact Or.inl ⟨get_mime_type (path_extension canonical), hct⟩
            · rcases hcors : headerOk "Access-Control-Allow-Origin" "*" with _ | _
              · exact Or.inr rfl
              · simp [handle_request, hc, hd, hpre, hread, hct, hcors] at hp
  · intro hall hp
    rcases hc : fs.canonicalize (candidate_path dist_dir url) with _ | canonical
    · simp [handle_request, hc] at hp
    · rcases hd : fs.canonicalize dist_dir with _ | dist_canonical
      · simp [handle_request, hc, hd] at hp
      · rcases hpre : dist_canonical.isPrefixOf canonical with _ | _
        · simp [handle_request, hc, hd, hpre] at hp
        · rcases hread : fs.readFile canonical with _ | content
          · simp [handle_request, hc, hd, hpre, hread] at hp
          · simp [handle_request, hc, hd, hpre, hread, hall] at hp

/-- C9 witness: with header construction always succeeding, a request never
panics the loop. -/
theorem header_panic_behavior_witness :
    handle_request fs_ok hOkTrue "/r" "/a.html" ≠ Outcome.panic :=
  (header_panic_behavior fs_ok hOkTrue "/r" "/a.html").2 (fun _ _ => rfl)

/-- Characterization of the port-attempt loop: with 16-bit base and offset
values it either exhausts its fuel or returns an unwrapped sum
`base i + offset` that fits in 16 bits and on which the probe bind
succeeded. -/
theorem portSearchFrom_spec (offset : Nat) (base : Nat → Nat) (bindOk : Nat → Bool)
    (hoff : offset ≤ 65535) (hbase : ∀ i, base i ≤ 65535) :
    ∀ fuel start,
      portSearchFrom offset base bindOk start fuel = none ∨
      ∃ i, start ≤ i ∧ i < start + fuel ∧
        portSearchFrom offset base bindOk start fuel = some (base i + offset) ∧
        base i + offset ≤ 65535 ∧ bindOk (base i + offset) = true := by
  intro fuel
  induction fuel with
  | zero => intro start; exact Or.inl rfl
  | succ n ih =>
    intro start
    have hlt : base start + offset < 4294967296 := by
      have := hbase start
      omega
    have hmod : (base start + offset) % 4294967296 = base start + offset :=
      Nat.mod_eq_of_lt hlt
    by_cases hbig : (base start + offset) % 4294967296 > 65535
    · have hstep : portSearchFrom offset base bindOk start (n + 1) =
          portSearchFrom offset base bindOk (start + 1) n := by
        simp [portSearchFrom, hbig]
      rcases ih (start + 1) with h | ⟨i, h1, h2, h3, h4, h5⟩
      · exact Or.inl (hstep.trans h)
      · exact Or.inr ⟨i, by omega, by omega, hstep.trans h3, h4, h5⟩
    · rcases hb : bindOk ((base start + offset) % 4294967296) with _ | _
      · have hstep : portSearchFrom offset base bindOk start (n + 1) =
            portSearchFrom offset base bindOk (start + 1) n := by
          simp [portSearchFrom, hbig, hb]
        rcases ih (start + 1) with h | ⟨i, h1, h2, h3, h4, h5⟩
        · exact Or.inl (hstep.trans h)
        · exact Or.inr ⟨i, by omega, by omega, hstep.trans h3, h4, h5⟩
      · have hstep : portSearchFrom offset base bindOk start (n + 1) =
            some ((base start + offset) % 4294967296) := by
          simp [portSearchFrom, hbig, hb]
        refine Or.inr ⟨start, le_refl start, by omega, ?_, by omega, ?_⟩
        · rw [hstep, hmod]
        · rw [← hmod]
          exact hb

/-- C6: `get_available_port_with_offset` makes at most 20 attempts; each
candidate is `base + offset` computed in 32-bit arithmetic, which under
16-bit inputs never wraps, a candidate above 65535 is skipped, a candidate
is returned only when the fresh bind on it succeeds, and after 20 failed
attempts the function returns the plain ephemeral fallback port with no
offset applied. -/
theorem port_with_offset_spec (offset fallback : Nat) (base : Nat → Nat)
    (bindOk : Nat → Bool) (hoff : offset ≤ 65535) (hbase : ∀ i, base i ≤ 65535) :
    (portSearchFrom offset base bindOk 0 20 = none ∧
      get_available_port_with_offset offset base bindOk fallback = fallback) ∨
    (∃ i, i < 20 ∧
      get_available_port_with_offset offset base bindOk fallback = base i + offset ∧
      base i + offset ≤ 65535 ∧ bindOk (base i + offset) = true) := by
  rcases portSearchFrom_spec offset base bindOk hoff hbase 20 0 with h | ⟨i, h1, h2, h3, h4, h5⟩
  · exact Or.inl ⟨h, by simp [get_available_port_with_offset, h]⟩
  · exact Or.inr ⟨i, by omega, by simp [get_available_port_with_offset, h3], h4, h5⟩

/-- C6 witness: with every ephemeral probe returning 50000, offset 10000 and
a bind that always succeeds, the allocator returns 60000 on a first attempt. -/
theorem port_with_offset_witness :
    (portSearchFrom 10000 (fun _ => 50000) (fun _ => true) 0 20 = none ∧
      get_available_port_with_offset 10000 (fun _ => 50000) (fun _ => true) 7 = 7) ∨
    (∃ i, i < 20 ∧
      get_available_port_with_offset 10000 (fun _ => 50000) (fun _ => true) 7 =
        50000 + 10000 ∧
      50000 + 10000 ≤ 65535 ∧ (fun _ : Nat => true) (50000 + 10000) = true) :=
  port_with_offset_spec 10000 7 (fun _ => 50000) (fun _ => true) (by decide)
    (fun _ => by show (50000 : Nat) ≤ 65535; decide)

/-- The retry loop only ever exits with a value different from `rpc`. -/
theorem while_ne_loop_some_ne (rpc : Nat) (alloc : Nat → Nat) :
    ∀ fuel i h, while_ne_loop rpc alloc i fuel = some h → h ≠ rpc := by
  intro fuel
  induction fuel with
  | zero =>
    intro i h hh
    simp [while_ne_loop] at hh
  | succ n ih =>
    intro i h hh
    by_cases he : alloc i = rpc
    · rw [show while_ne_loop rpc alloc i (n + 1) = while_ne_loop rpc alloc (i + 1) n from
        by simp [while_ne_loop, he]] at hh
      exact ih (i + 1) h hh
    · rw [show while_ne_loop rpc alloc i (n + 1) = some (alloc i) from
        by simp [while_ne_loop, he]] at hh
      rw [show h = alloc i from (Option.some.injEq _ _ ▸ hh).symm]
      exact he

/-- Under a persistent collision the retry loop never exits. -/
theorem while_ne_loop_const_none (rpc : Nat) (alloc : Nat → Nat)
    (hall : ∀ j, alloc j = rpc) : ∀ fuel i, while_ne_loop rpc alloc i fuel = none := by
  intro fuel
  induction fuel with
  | zero => intro i; rfl
  | succ n ih =>
    intro i
    rw [show while_ne_loop rpc alloc i (n + 1) = while_ne_loop rpc alloc (i + 1) n from
      by simp [while_ne_loop, hall i]]
    exact ih (i + 1)

set_option maxRecDepth 20000 in
/-- C7 counterexample: when every allocation collides (always the value 5),
the retry loop at src/main.rs lines 97-99 is still running after examining
1000 allocations — there is no bounded retry count and no fatal-error path,
contradicting the claim that a persisting collision becomes a fatal startup
error after a bounded number of retries. -/
theorem port_retry_no_bound_counterexample :
    while_ne_loop 5 (fun _ => 5) 1 1000 = none ∧
    allocate_ports (fun _ => 5) 1000 = none := by
  constructor
  · decide
  · decide

/-- C7 (amended): the driver retries the second allocation until it differs
from the first, with no bound on the number of retries and no fatal-error
path (under a persistent collision the loop runs forever); whenever the
retry loop does exit, the two ports are distinct. -/
theorem port_retry_unbounded (alloc : Nat → Nat) (fuel : Nat) :
    (∀ rpc_port http_port,
      allocate_ports alloc fuel = some (rpc_port, http_port) → rpc_port ≠ http_port) ∧
    (∀ rpc_port fuel2, (∀ j, alloc j = rpc_port) →
      while_ne_loop rpc_port alloc 1 fuel2 = none) := by
  constructor
  · intro rpc_port http_port hsome
    rcases hw : while_ne_loop (alloc 0) alloc 1 fuel with _ | h
    · rw [show allocate_ports alloc fuel = none from by simp [allocate_ports, hw]] at hsome
      exact absurd hsome (by simp)
    · rw [show allocate_ports alloc fuel = some (alloc 0, h) from
        by simp [allocate_ports, hw]] at hsome
      have h1 : alloc 0 = rpc_port := congrArg Prod.fst (Option.some.injEq _ _ ▸ hsome)
      have h2 : h = http_port := congrArg Prod.snd (Option.some.injEq _ _ ▸ hsome)
      have hne : h ≠ alloc 0 := while_ne_loop_some_ne (alloc 0) alloc fuel 1 h hw
      rw [← h1, ← h2]
      exact fun he => hne he.symm
  · intro rpc_port fuel2 hall
    exact while_ne_loop_const_none rpc_port alloc hall fuel2 1

/-- C7 witness: with allocation results 0, 1, 2, ... the two ports come out
distinct, and with constantly colliding allocations the loop never exits. -/
theorem port_retry_unbounded_witness :
    allocate_ports (fun i => i) 5 = some (0, 1) ∧ (0 : Nat) ≠ 1 ∧
    while_ne_loop 5 (fun _ => 5) 1 30 = none :=
  ⟨by decide, (port_retry_unbounded (fun i => i) 5).1 0 1 (by decide),
    (port_retry_unbounded (fun _ => 5) 0).2 5 30 (fun _ => rfl)⟩

/-- C8: if the backend executable or the entry HTML file is missing, `main`
returns before any port is probed, any process is spawned or any listener is
started; and in a successful startup the two existence checks are the first
two steps, before every port allocation, the spawn and the listener. -/
theorem startup_checks_first (backendExists indexExists : Bool) (portAllocs : Nat)
    (h : backendExists = false ∨ indexExists = false) :
    StartupEvent.portAlloc ∉ startup_events backendExists indexExists portAllocs ∧
    StartupEvent.spawnBackend ∉ startup_events backendExists indexExists portAllocs ∧
    StartupEvent.startListener ∉ startup_events backendExists indexExists portAllocs ∧
    startup_events true true portAllocs =
      StartupEvent.checkBackend :: StartupEvent.checkIndex ::
        (List.replicate portAllocs StartupEvent.portAlloc ++
          [StartupEvent.spawnBackend, StartupEvent.startListener]) := by
  refine ⟨?_, ?_, ?_, by simp [startup_events]⟩ <;>
    (rcases h with h | h <;> subst h) <;> simp [startup_events]

/-- C8 witness: with the backend executable missing, the startup trace holds
no port allocation, no spawn and no listener start. -/
theorem startup_checks_first_witness :
    StartupEvent.portAlloc ∉ startup_events false true 2 ∧
    StartupEvent.spawnBackend ∉ startup_events false true 2 ∧
    StartupEvent.startListener ∉ startup_events false true 2 ∧
    startup_events true true 2 =
      StartupEvent.checkBackend :: StartupEvent.checkIndex ::
        (List.replicate 2 StartupEvent.portAlloc ++
          [StartupEvent.spawnBackend, StartupEvent.startListener]) :=
  startup_checks_first false true 2 (Or.inl rfl)

end PerfettoLauncher
